import Mathlib

/-!
Verification of the eyelinkparser repository against its specification.

The development shallowly embeds the two source files:
  * `eyelinkparser.py`   — the `EyeLinkParser` class: tokenizer (`split`),
    trial/phase state machine (`parse_file` / `parse_trial` / `parse_variable`
    / `parse_phase`, `is_start_trial` / `is_end_trial`) and the legacy sample
    decoder `to_sample`.
  * `eyelinkparser/_events.py` — the event classifier: `Sample`, `Fixation`,
    `Saccade`, `Blink` with `match`/`__init__` and the `event` wrapper that
    swallows decode exceptions.

Modelling conventions:
  * Python values produced by the tokenizer are `Tok`: an `int`, a `float`
    (modelled exactly as a rational, ignoring IEEE rounding, which no claim
    depends on), or a `str`.
  * Python `==` between tokens is `pyEq` (an int and a float compare by
    numeric value; a string never equals a number).
  * Exceptions (`AssertionError`, `TypeError` from string concatenation)
    surface as `Except String`; decode failures that the source swallows
    (`event`'s `except` clauses: `TypeError`, `IndexError`, …) surface as
    `Option`.
-/

deriving instance DecidableEq for Except

/-- A tokenized word: Python `int`, `float` (modelled as `ℚ`) or `str`. -/
inductive Tok where
  | int (n : ℤ)
  | real (q : ℚ)
  | str (s : String)
deriving DecidableEq, Repr

/-- Numeric value of a token, `none` for strings. -/
def Tok.qval? : Tok → Option ℚ
  | .int n => some (mkRat n 1)
  | .real q => some q
  | .str _ => none

/-- Is the token a Python string (`isinstance(t, basestring)`)? -/
def Tok.isStr : Tok → Bool
  | .str _ => true
  | _ => false

/-- Python `==` on tokens: numbers compare by value across int/float,
a string never equals a number. -/
def pyEq : Tok → Tok → Bool
  | .int m, .int n => m = n
  | .int m, .real q => (m : ℚ) = q
  | .real q, .int n => q = (n : ℚ)
  | .real p, .real q => p = q
  | .str s, .str t => s = t
  | .str _, .int _ => false
  | .str _, .real _ => false
  | .int _, .str _ => false
  | .real _, .str _ => false

/-!  Tokenizer (`EyeLinkParser.split`).

`split` runs `shlex.split(line)` (POSIX mode, `whitespace_split`, no
comment characters) and then coerces each word with `int(s)` else
`float(s)` else keeps the string.  `shlex.split` raises `ValueError` on an
unclosed quotation or a trailing escape character; `split` does not catch
that, so tokenization itself can fail.  The numeric-literal models cover
ASCII literals with optional sign, fraction and exponent; Python
extensions not exercised by any input in this development (underscore
digit grouping, unicode digits, `inf`/`nan` literals) are not modelled. -/

/-- Characters stripped by Python `int()` / `float()`. -/
def pyStripWs (c : Char) : Bool :=
  c = ' ' || c = '\t' || c = '\n' || c = '\r' || c = '\x0b' || c = '\x0c'

/-- Strip leading and trailing whitespace, as Python numeric conversion does. -/
def trimWs (cs : List Char) : List Char :=
  ((cs.dropWhile pyStripWs).reverse.dropWhile pyStripWs).reverse

/-- Numeric value of a digit list, most significant first. -/
def digitsToNat (cs : List Char) : ℕ :=
  cs.foldl (fun a c => 10 * a + (c.toNat - 48)) 0

/-- Model of Python `int(s)`: optional surrounding whitespace, optional
sign, one or more ASCII digits. -/
def intParse? (s : String) : Option ℤ :=
  match trimWs s.toList with
  | [] => none
  | c :: cs =>
    let sgn : ℤ := if c = '-' then -1 else 1
    let ds := if c = '-' || c = '+' then cs else c :: cs
    if ds ≠ [] ∧ ds.all (·.isDigit) then some (sgn * digitsToNat ds) else none

/-- Value of an unscaled decimal mantissa `digits / 10 ^ scale`, adjusted
by a power-of-ten exponent, as an exact rational.  (Kept in
numerator/denominator form so that concrete runs reduce in the kernel.) -/
def decimalVal (mant : ℕ) (scale : ℕ) (eneg : Bool) (e : ℕ) : ℚ :=
  if eneg then mkRat mant (10 ^ (scale + e))
  else if e ≤ scale then mkRat mant (10 ^ (scale - e))
  else mkRat (mant * 10 ^ (e - scale)) 1

/-- Exponent suffix of a float literal: optional sign then digits; yields
the mantissa value scaled by the signed power of ten. -/
def expParse? (mant : ℕ) (scale : ℕ) : List Char → Option ℚ
  | [] => none
  | c :: cs =>
    let neg := c = '-'
    let ds := if c = '-' || c = '+' then cs else c :: cs
    if ds ≠ [] ∧ ds.all (·.isDigit) then
      some (decimalVal mant scale neg (digitsToNat ds))
    else none

/-- Unsigned body of a float literal: digits, optional point and fraction,
optional exponent. -/
def floatBody? (cs : List Char) : Option ℚ :=
  let ip := cs.takeWhile (·.isDigit)
  let r1 := cs.dropWhile (·.isDigit)
  match r1 with
  | [] => if ip = [] then none else some (mkRat (digitsToNat ip) 1)
  | '.' :: r2 =>
    let fp := r2.takeWhile (·.isDigit)
    let r3 := r2.dropWhile (·.isDigit)
    if ip = [] ∧ fp = [] then none
    else
      let mant := digitsToNat (ip ++ fp)
      match r3 with
      | [] => some (decimalVal mant fp.length false 0)
      | 'e' :: r4 => expParse? mant fp.length r4
      | 'E' :: r4 => expParse? mant fp.length r4
      | _ => none
  | 'e' :: r4 => if ip = [] then none else expParse? (digitsToNat ip) 0 r4
  | 'E' :: r4 => if ip = [] then none else expParse? (digitsToNat ip) 0 r4
  | _ => none

/-- Model of Python `float(s)` on ordinary decimal literals. -/
def floatParse? (s : String) : Option ℚ :=
  match trimWs s.toList with
  | [] => none
  | c :: cs =>
    if c = '-' then (floatBody? cs).map (fun q => -q)
    else if c = '+' then floatBody? cs
    else floatBody? (c :: cs)

/-- Per-word coercion of `split`: try `int(s)`, else `float(s)`, else keep
the string. -/
def coerce (w : String) : Tok :=
  match intParse? w with
  | some n => .int n
  | none =>
    match floatParse? w with
    | some q => .real q
    | none => .str w

/-- Lexer mode of the `shlex` POSIX state machine: outside quotes, inside
single quotes, inside double quotes, after a backslash outside quotes,
after a backslash inside double quotes. -/
inductive LexMode where
  | base
  | sq
  | dq
  | escB
  | escD
deriving DecidableEq

/-- Whitespace characters of `shlex` (`shlex.whitespace`). -/
def shlexWs (c : Char) : Bool :=
  c = ' ' || c = '\t' || c = '\r' || c = '\n'

/-- Append a character to the word being accumulated (starting one if
needed). -/
def pushTok (tok : Option (List Char)) (c : Char) : Option (List Char) :=
  some (tok.getD [] ++ [c])

/-- The `shlex` POSIX word scanner: mode, word under construction
(`none` when between words; a quoted empty word is `some []`), words
emitted so far, remaining characters.  At end of input an open quote
raises `ValueError("No closing quotation")` and a pending escape raises
`ValueError("No escaped character")`, as in CPython's `shlex`. -/
def shlexRun : LexMode → Option (List Char) → List String → List Char →
    Except String (List String)
  | .base, none, acc, [] => .ok acc
  | .base, some t, acc, [] => .ok (acc ++ [String.mk t])
  | .sq, _, _, [] => .error "No closing quotation"
  | .dq, _, _, [] => .error "No closing quotation"
  | .escB, _, _, [] => .error "No escaped character"
  | .escD, _, _, [] => .error "No escaped character"
  | .base, tok, acc, c :: cs =>
    if shlexWs c then
      match tok with
      | none => shlexRun .base none acc cs
      | some t => shlexRun .base none (acc ++ [String.mk t]) cs
    else if c = '\'' then shlexRun .sq (some (tok.getD [])) acc cs
    else if c = '"' then shlexRun .dq (some (tok.getD [])) acc cs
    else if c = '\\' then shlexRun .escB (some (tok.getD [])) acc cs
    else shlexRun .base (pushTok tok c) acc cs
  | .sq, tok, acc, c :: cs =>
    if c = '\'' then shlexRun .base tok acc cs
    else shlexRun .sq (pushTok tok c) acc cs
  | .dq, tok, acc, c :: cs =>
    if c = '"' then shlexRun .base tok acc cs
    else if c = '\\' then shlexRun .escD tok acc cs
    else shlexRun .dq (pushTok tok c) acc cs
  | .escB, tok, acc, c :: cs => shlexRun .base (pushTok tok c) acc cs
  | .escD, tok, acc, c :: cs =>
    if c = '"' || c = '\\' then shlexRun .dq (pushTok tok c) acc cs
    else shlexRun .dq (pushTok (pushTok tok '\\') c) acc cs

/-- Model of `shlex.split(line)` as called by `EyeLinkParser.split`. -/
def shlexSplit (s : String) : Except String (List String) :=
  shlexRun .base none [] s.toList

/-- Model of `EyeLinkParser.split`: shell-split the line, then coerce each
word.  The per-word `try int / try float / keep` never fails, but the
`shlex` call may raise, and `split` does not catch that. -/
def splitLine (s : String) : Except String (List Tok) :=
  (shlexSplit s).map (List.map coerce)

/-!  Legacy sample decoder (`EyeLinkParser.to_sample`).

`to_sample` requires 5 or 9 tokens and a numeric token 0; it then rejects
the line outright when token 1 (x) is a string or token 3 (pupil size) is
zero or a string — its docstring: "Samples with missing data are not
matched."  Token 2 (y) is stored without any check. -/

/-- The dictionary `to_sample` returns: keys `time`, `x`, `y`,
`pupil_size`. -/
structure SampleD where
  time : Tok
  x : Tok
  y : Tok
  pupil_size : Tok
deriving DecidableEq, Repr

/-- Model of `EyeLinkParser.to_sample`. -/
def toSample (l : List Tok) : Option SampleD :=
  if l.length = 5 ∨ l.length = 9 then
    match l with
    | t0 :: t1 :: t2 :: t3 :: _ =>
      if t0.isStr then none
      else if t1.isStr then none
      else if pyEq t3 (.int 0) ∨ t3.isStr then none
      else some ⟨t0, t1, t2, t3⟩
    | _ => none
  else none

/-!  Trial/phase state machine (`EyeLinkParser.parse_file` /
`parse_trial` / `parse_variable` / `parse_phase`).

The per-trial output `trialdm` is a single-row table: an association list
from column name to cell, where `trialdm[k] = v` replaces an existing
column of the same name or appends a new one.  `parse_variable` uses the
raw token `l[3]` as column name; the phase flush uses the string
`"ptrace_" ++ name` (and `x`/`y` variants), so a variable named like a
trace column shares its cell, as in the source, where both live in the
same `DataMatrix` namespace.  Python's two nested loops (`parse_file`'s
`for line in f` and `parse_trial`'s `for line in f`) share one file
iterator; they are rendered as a single left fold over the line list with
an explicit idle/in-trial mode.  The no-op hooks (`on_start_file`,
`on_start_trial`, `on_end_trial`, `on_end_file`, `parse_line`) and the
progress printing are omitted; assertion failures and the `TypeError`
from concatenating `u'ptrace_'` with a non-string phase name surface as
`Except.error`.  Tokenization errors abort the parse in the source as
well; the model tokenizes all lines up front, which yields an error
exactly when the interleaved source does (possibly a different one when
several lines are faulty). -/

/-- A cell of the single-row trial table: a scalar column or a series
column (the series' depth is the list length). -/
inductive Cell where
  | scalar (t : Tok)
  | series (vs : List Tok)
deriving DecidableEq, Repr

/-- Set a column: replace an existing column of that name, else append. -/
def setCell : List (Tok × Cell) → Tok → Cell → List (Tok × Cell)
  | [], k, v => [(k, v)]
  | (k', v') :: rest, k, v =>
    if k' = k then (k, v) :: rest else (k', v') :: setCell rest k v

/-- Look a column up by name. -/
def getCell : List (Tok × Cell) → Tok → Option Cell
  | [], _ => none
  | (k', v') :: rest, k => if k' = k then some v' else getCell rest k

/-- The single-row trial table `trialdm`. -/
structure TrialDM where
  cells : List (Tok × Cell)
deriving DecidableEq, Repr

/-- Column assignment `trialdm[k] = v`. -/
def TrialDM.set (dm : TrialDM) (k : Tok) (v : Cell) : TrialDM :=
  ⟨setCell dm.cells k v⟩

/-- Column lookup. -/
def TrialDM.get? (dm : TrialDM) (k : Tok) : Option Cell :=
  getCell dm.cells k

/-- The fresh `trialdm` of `parse_trial`: columns `path` and `trialid`. -/
def trialInit (path : String) (tid : Tok) : TrialDM :=
  ⟨[(.str "path", .scalar (.str path)), (.str "trialid", .scalar tid)]⟩

/-- Mutable parser state while inside a trial: `self.current_phase`,
`self.ptrace` / `self.xtrace` / `self.ytrace`, and `self.trialdm`. -/
structure PState where
  current_phase : Option Tok
  ptrace : List Tok
  xtrace : List Tok
  ytrace : List Tok
  dm : TrialDM
deriving DecidableEq, Repr

/-- Model of `EyeLinkParser.parse_variable`: a 5-token
`MSG <ts> var <name> <value>` line sets trial column `<name>`. -/
def parseVariable (dm : TrialDM) (l : List Tok) : TrialDM :=
  match l with
  | [a, _, c, n, v] =>
    if pyEq a (.str "MSG") ∧ pyEq c (.str "var") then dm.set n (.scalar v)
    else dm
  | _ => dm

/-- The trailing part of `parse_phase`: while a phase is open, try
`to_sample` and append the decoded fields to the three traces. -/
def sampleStep (st : PState) (l : List Tok) : PState :=
  match st.current_phase with
  | none => st
  | some _ =>
    match toSample l with
    | none => st
    | some s =>
      { st with ptrace := st.ptrace ++ [s.pupil_size],
                xtrace := st.xtrace ++ [s.x],
                ytrace := st.ytrace ++ [s.y] }

/-- Model of `EyeLinkParser.parse_phase`.  On `start_phase` it asserts no
phase is open (the second source assertion,
`self.current_phase not in self.trialdm`, tests `None` — which is never a
column name — so it never fires and adds no condition here).  On
`end_phase` it asserts the name matches the open phase, then flushes the
three traces into `ptrace_/xtrace_/ytrace_<name>` columns.  Any other
line feeds `sampleStep`. -/
def parsePhase (st : PState) (l : List Tok) : Except String PState :=
  match l with
  | [a, _, c, nm] =>
    if pyEq a (.str "MSG") ∧ pyEq c (.str "start_phase") then
      match st.current_phase with
      | some _ => .error "AssertionError"
      | none =>
        .ok { st with current_phase := some nm,
                      ptrace := [], xtrace := [], ytrace := [] }
    else if pyEq a (.str "MSG") ∧ pyEq c (.str "end_phase") then
      match st.current_phase with
      | none => .error "AssertionError"
      | some cp =>
        if pyEq cp nm then
          match cp with
          | .str s =>
            let dm' := ((st.dm.set (.str ("ptrace_" ++ s))
                (.series st.ptrace)).set
                (.str ("xtrace_" ++ s)) (.series st.xtrace)).set
                (.str ("ytrace_" ++ s)) (.series st.ytrace)
            .ok { st with current_phase := none, dm := dm' }
          | _ => .error "TypeError"
        else .error "AssertionError"
    else .ok (sampleStep st l)
  | _ => .ok (sampleStep st l)

/-- Model of `EyeLinkParser.is_start_trial`: a 4-token
`MSG <ts> start_trial <id>` line. -/
def isStartTrial (l : List Tok) : Bool :=
  match l with
  | [a, _, c, _] => pyEq a (.str "MSG") ∧ pyEq c (.str "start_trial")
  | _ => false

/-- Model of `EyeLinkParser.is_end_trial`: a 3-token
`MSG <ts> end_trial` line.  It does not look at the current phase. -/
def isEndTrial (l : List Tok) : Bool :=
  match l with
  | [a, _, c] => pyEq a (.str "MSG") ∧ pyEq c (.str "end_trial")
  | _ => false

/-- One body line of `parse_trial`: `parse_variable` then `parse_phase`
(`parse_line` is a no-op hook). -/
def trialStep (st : PState) (l : List Tok) : Except String PState :=
  parsePhase { st with dm := parseVariable st.dm l } l

/-- Driver mode: outside any trial, or inside one with the running
state. -/
inductive Mode where
  | idle
  | inTrial (st : PState)
deriving DecidableEq, Repr

/-- One line of the file driver.  While idle only `is_start_trial` is
consulted (the source's `parse_file` loop); inside a trial the line is
checked against `is_end_trial` and otherwise fed to the trial body (the
source's `parse_trial` loop).  A closing `end_trial` appends the trial
row to the file table. -/
def fileStep (path : String) (a : List TrialDM × Mode) (l : List Tok) :
    Except String (List TrialDM × Mode) :=
  match a.2 with
  | .idle =>
    if isStartTrial l then
      .ok (a.1, .inTrial ⟨none, [], [], [], trialInit path (l.getD 3 (.int 0))⟩)
    else .ok (a.1, .idle)
  | .inTrial st =>
    if isEndTrial l then .ok (a.1 ++ [st.dm], .idle)
    else (trialStep st l).map fun st' => (a.1, .inTrial st')

/-- Model of `EyeLinkParser.parse_file` on tokenized lines.  When the
stream ends while a trial is open, `parse_trial`'s loop simply finishes
and the trial row is still returned and appended to the file table. -/
def parseFileToks (path : String) (ls : List (List Tok)) :
    Except String (List TrialDM) := do
  let a ← ls.foldlM (fileStep path) ([], Mode.idle)
  match a.2 with
  | .idle => pure a.1
  | .inTrial st => pure (a.1 ++ [st.dm])

/-- Model of `EyeLinkParser.parse_file` on raw lines: tokenize each line
with `split`, then run the driver. -/
def parseFile (path : String) (lines : List String) :
    Except String (List TrialDM) := do
  parseFileToks path (← lines.mapM splitLine)

/-!  Event classifier (`eyelinkparser/_events.py`).

Each record kind has a structural `match` and a decoding `__init__`;
`event` returns `None` when `match` fails or when `__init__` raises
(`TypeError` from `assert_numeric` or from arithmetic on strings,
`IndexError` from a short list — the source swallows all of these).  All
decoders are therefore `Option`-valued here.  `assert_numeric` has two
variants: with the optional `fastnumbers` package it checks
`fastnumbers.isreal` (a number, or a string parsing as one); without it,
the field must be an `int`/`float` that is strictly positive.  The flag
`fast` selects the variant.  The callers of these decoders (the package's
own parser) are not part of the sources under review, so `eyes_recorded`
is modelled as the three values `Sample.__init__` recognizes; any other
value would construct a record with no per-eye fields at all. -/

/-- Which eye(s) are recorded, established once per file. -/
inductive Eyes where
  | both
  | right
  | left
deriving DecidableEq, Repr

/-- A decoded per-eye field: the not-a-number sentinel (`np.nan`) or the
raw token. -/
inductive SVal where
  | nan
  | val (t : Tok)
deriving DecidableEq, Repr

/-- Model of `fastnumbers.isreal`: a number, or a string that parses as a
float. -/
def isrealTok : Tok → Bool
  | .int _ => true
  | .real _ => true
  | .str s => (floatParse? s).isSome

/-- Is the token numeric and strictly positive (the non-`fastnumbers`
check)? -/
def isPosNum : Tok → Bool
  | .int n => 0 < n
  | .real q => 0 < q
  | .str _ => false

/-- Model of `Event.assert_numeric` at the given indices, as a Boolean
(`false` when the source would raise `TypeError`, or `IndexError` on a
missing index). -/
def assertNumeric (fast : Bool) (l : List Tok) (idxs : List ℕ) : Bool :=
  idxs.all fun i =>
    match l.get? i with
    | none => false
    | some t => if fast then isrealTok t else isPosNum t

/-- A dot token becomes the sentinel (`l[i] == '.'`), anything else is
kept. -/
def dotOr (t : Tok) : SVal :=
  if pyEq t (.str ".") then .nan else .val t

/-- A dot or zero pupil-size token becomes the sentinel
(`l[i] in (0, '.')`), anything else is kept. -/
def dotZero (t : Tok) : SVal :=
  if pyEq t (.int 0) ∨ pyEq t (.str ".") then .nan else .val t

/-- A decoded `Sample`: timestamp and the six per-eye fields. -/
structure Sample where
  t : Tok
  lx : SVal
  ly : SVal
  lpupil_size : SVal
  rx : SVal
  ry : SVal
  rpupil_size : SVal
deriving DecidableEq, Repr

/-- Model of `Sample.match`: 5, 6, 8 or 9 tokens, and a non-string
token 0. -/
def sampleMatch (l : List Tok) : Bool :=
  (l.length = 5 ∨ l.length = 6 ∨ l.length = 8 ∨ l.length = 9) ∧
    ¬(l.getD 0 (.int 0)).isStr

/-- Model of `Sample.__init__`: `assert_numeric` on the timestamp, then
per-eye decoding with the dot / zero-pupil sentinel rules.  A missing
index (`IndexError`) fails the decode. -/
def sampleInit (fast : Bool) (eyes : Eyes) (l : List Tok) : Option Sample :=
  if assertNumeric fast l [0] then
    match l.get? 0 with
    | none => none
    | some t0 =>
      match eyes with
      | .both =>
        match l.get? 1, l.get? 2, l.get? 3, l.get? 4, l.get? 5, l.get? 6 with
        | some a, some b, some c, some d, some e, some f =>
          some ⟨t0, dotOr a, dotOr b, dotZero c, dotOr d, dotOr e, dotZero f⟩
        | _, _, _, _, _, _ => none
      | .right =>
        match l.get? 1, l.get? 2, l.get? 3 with
        | some a, some b, some c =>
          some ⟨t0, .nan, .nan, .nan, dotOr a, dotOr b, dotZero c⟩
        | _, _, _ => none
      | .left =>
        match l.get? 1, l.get? 2, l.get? 3 with
        | some a, some b, some c =>
          some ⟨t0, dotOr a, dotOr b, dotZero c, .nan, .nan, .nan⟩
        | _, _, _ => none
  else none

/-- Model of `sample(l, eyes_recorded)` = `event(l, Sample,
eyes_recorded)`. -/
def sampleDecode (fast : Bool) (eyes : Eyes) (l : List Tok) : Option Sample :=
  if sampleMatch l then sampleInit fast eyes l else none

/-- A decoded `Blink`.  Note the source stores `duration = l[4]` read
from the line, not `et - st`. -/
structure Blink where
  eye : Tok
  st : Tok
  et : Tok
  duration : Tok
deriving DecidableEq, Repr

/-- Model of `Blink.match`: 5 tokens starting with `EBLINK`. -/
def blinkMatch (l : List Tok) : Bool :=
  l.length = 5 ∧ pyEq (l.getD 0 (.int 0)) (.str "EBLINK")

/-- Model of `blink(l)` = `event(l, Blink)`: `assert_numeric` on indices
2..4, then the fields are stored verbatim. -/
def blinkDecode (fast : Bool) (l : List Tok) : Option Blink :=
  if blinkMatch l ∧ assertNumeric fast l [2, 3, 4] then
    match l.get? 1, l.get? 2, l.get? 3, l.get? 4 with
    | some e, some a, some b, some d => some ⟨e, a, b, d⟩
    | _, _, _, _ => none
  else none

/-- A decoded `Fixation`: position and pupil size are stored verbatim,
start/end times are numeric (their difference is computed), `duration`
is `et - st`. -/
structure Fixation where
  eye : Tok
  x : Tok
  y : Tok
  pupil_size : Tok
  st : ℚ
  et : ℚ
  duration : ℚ
deriving DecidableEq, Repr

/-- Model of `Fixation.match`: 8 tokens starting with `EFIX`. -/
def fixationMatch (l : List Tok) : Bool :=
  l.length = 8 ∧ pyEq (l.getD 0 (.int 0)) (.str "EFIX")

/-- Model of `fixation(l)` = `event(l, Fixation)`: `assert_numeric` on
indices 2..7; `self.duration = self.et - self.st` raises `TypeError`
(swallowed) unless both times are numbers. -/
def fixationDecode (fast : Bool) (l : List Tok) : Option Fixation :=
  if fixationMatch l ∧ assertNumeric fast l [2, 3, 4, 5, 6, 7] then
    match l.get? 1, l.get? 5, l.get? 6, l.get? 7 with
    | some e, some xv, some yv, some pv =>
      match (l.getD 2 (.int 0)).qval?, (l.getD 3 (.int 0)).qval? with
      | some stq, some etq => some ⟨e, xv, yv, pv, stq, etq, etq - stq⟩
      | _, _ => none
    | _, _, _, _ => none
  else none

/-- A decoded `Saccade`: start/end coordinates and times are numeric
(they feed subtraction), `duration` is `et - st`.  The amplitude `size`
is `sqrt((sx-ex)^2 + (sy-ey)^2)`, computed in the source at construction
from these same fields; it is exposed below as the derived function
`Saccade.size` so that the decoder stays computable. -/
structure Saccade where
  eye : Tok
  sx : ℚ
  sy : ℚ
  ex : ℚ
  ey : ℚ
  st : ℚ
  et : ℚ
  duration : ℚ
deriving DecidableEq, Repr

/-- The amplitude `self.size = np.sqrt((sx-ex)**2 + (sy-ey)**2)`. -/
noncomputable def Saccade.size (s : Saccade) : ℝ :=
  Real.sqrt (((s.sx : ℝ) - (s.ex : ℝ)) ^ 2 + ((s.sy : ℝ) - (s.ey : ℝ)) ^ 2)

/-- The decoded sample field fed from token 1 (x of the recorded eye;
for `both` the left eye). -/
def eyeX : Eyes → Sample → SVal
  | .both, s => s.lx
  | .right, s => s.rx
  | .left, s => s.lx

/-- The decoded sample field fed from token 2. -/
def eyeY : Eyes → Sample → SVal
  | .both, s => s.ly
  | .right, s => s.ry
  | .left, s => s.ly

/-- The decoded pupil-size field fed from token 3. -/
def eyePupil : Eyes → Sample → SVal
  | .both, s => s.lpupil_size
  | .right, s => s.rpupil_size
  | .left, s => s.lpupil_size

/-- No field of a decoded sample holds the literal dot placeholder, and
no pupil-size field holds a numeric zero. -/
def noMissingLiteral (s : Sample) : Prop :=
  s.lx ≠ .val (.str ".") ∧ s.ly ≠ .val (.str ".") ∧
  s.rx ≠ .val (.str ".") ∧ s.ry ≠ .val (.str ".") ∧
  s.lpupil_size ≠ .val (.str ".") ∧ s.rpupil_size ≠ .val (.str ".") ∧
  (∀ t, s.lpupil_size = .val t → pyEq t (.int 0) = false) ∧
  (∀ t, s.rpupil_size = .val t → pyEq t (.int 0) = false)

/-- Model of `Saccade.match`: 11 or 15 tokens starting with `ESACC`. -/
def saccadeMatch (l : List Tok) : Bool :=
  (l.length = 11 ∨ l.length = 15) ∧ pyEq (l.getD 0 (.int 0)) (.str "ESACC")

/-- Field extraction of `Saccade.__init__` given the coordinate base
index (5 for the 11-token layout, 9 otherwise): `assert_numeric` on times
and coordinates, and the subtractions in `size`/`duration` require actual
numbers. -/
def saccadeFrom (fast : Bool) (l : List Tok) (base : ℕ) : Option Saccade :=
  if assertNumeric fast l [2, 3, base, base + 1, base + 2, base + 3] then
    match (l.getD base (.int 0)).qval?, (l.getD (base + 1) (.int 0)).qval?,
          (l.getD (base + 2) (.int 0)).qval?,
          (l.getD (base + 3) (.int 0)).qval? with
    | some sxq, some syq, some exq, some eyq =>
      match (l.getD 2 (.int 0)).qval?, (l.getD 3 (.int 0)).qval? with
      | some stq, some etq =>
        some ⟨l.getD 1 (.int 0), sxq, syq, exq, eyq, stq, etq, etq - stq⟩
      | _, _ => none
    | _, _, _, _ => none
  else none

/-- Model of `saccade(l)` = `event(l, Saccade)` proper: the coordinate
base index depends on the layout (`if len(l) == 11`). -/
def saccadeDecode (fast : Bool) (l : List Tok) : Option Saccade :=
  if saccadeMatch l then
    saccadeFrom fast l (if l.length = 11 then 5 else 9)
  else none

/-!  Auxiliary definitions used by the statements below. -/

/-- Does the line match either phase-marker pattern of `parse_phase`
(a 4-token `MSG … start_phase/end_phase …` message)? -/
def isPhaseMsg (l : List Tok) : Bool :=
  match l with
  | [a, _, c, _] =>
    pyEq a (.str "MSG") ∧
      (pyEq c (.str "start_phase") ∨ pyEq c (.str "end_phase"))
  | _ => false

/-- The parser state right after `is_start_trial` matched: no open phase,
fresh `trialdm`. -/
def startPState (path : String) (tid : Tok) : PState :=
  ⟨none, [], [], [], trialInit path tid⟩

/-- The spec's concrete six-line scenario (§8 of the specification). -/
def specScenario : List String :=
  ["MSG 100 start_trial 1",
   "MSG 101 var cond A",
   "MSG 102 start_phase probe",
   "4815155 168.2 406.5 2141.0",
   "MSG 103 end_phase probe",
   "MSG 104 end_trial"]

/-- The trial row the source produces on `specScenario`: the 4-token
sample line is rejected by `to_sample`, so all three traces are empty. -/
def specScenarioRow : TrialDM :=
  ⟨[(.str "path", .scalar (.str "f")), (.str "trialid", .scalar (.int 1)),
    (.str "cond", .scalar (.str "A")), (.str "ptrace_probe", .series []),
    (.str "xtrace_probe", .series []), (.str "ytrace_probe", .series [])]⟩

/-- A blink-format sample line, 5 tokens: dot placeholders and a zero
pupil size (`661781 . . 0.0 ...`). -/
def blinkFormatLine : List Tok :=
  [.int 661781, .str ".", .str ".", .real 0, .str "..."]

/-- A trial whose phase `probe` collects one sample and is then reused:
`start_phase probe` appears a second time after `end_phase probe`. -/
def reusePhaseLines : List String :=
  ["MSG 100 start_trial 1",
   "MSG 101 start_phase probe",
   "661781 1.0 2.0 3.0 0",
   "MSG 102 end_phase probe",
   "MSG 103 start_phase probe",
   "MSG 104 end_phase probe",
   "MSG 105 end_trial"]

/-- The same trial with the second phase renamed `probe2` (control run:
no name reuse). -/
def freshPhaseLines : List String :=
  ["MSG 100 start_trial 1",
   "MSG 101 start_phase probe",
   "661781 1.0 2.0 3.0 0",
   "MSG 102 end_phase probe",
   "MSG 103 start_phase probe2",
   "MSG 104 end_phase probe2",
   "MSG 105 end_trial"]

/-- The `EBLINK` line of `Blink`'s own docstring:
`EBLINK R 5294685 5294774 90`. -/
def eblinkDocLine : List Tok :=
  [.str "EBLINK", .str "R", .int 5294685, .int 5294774, .int 90]

/-- The `EFIX` line of `Fixation`'s docstring. -/
def efixDocLine : List Tok :=
  [.str "EFIX", .str "R", .int 1651574, .int 1654007, .int 2434,
   .real (mkRat 6533 10), .real (mkRat 5578 10), .int 4710]

/-- The `ESACC` line of `Saccade`'s docstring (11 tokens). -/
def esaccDocLine : List Tok :=
  [.str "ESACC", .str "R", .int 3216221, .int 3216233, .int 13,
   .real (mkRat 5152 10), .real (mkRat 3816 10), .real (mkRat 5312 10),
   .real (mkRat 3907 10), .real (mkRat 51 100), .int 58]

/-!  Helper lemmas. -/

/-- Python equality against a string literal holds only for that string
token. -/
theorem pyEq_str_right (t : Tok) (s : String) :
    pyEq t (.str s) = true ↔ t = .str s := by
  cases t <;> simp [pyEq]

/-- Looking up the column just set returns the new cell. -/
theorem getCell_set_self (m : List (Tok × Cell)) (k : Tok) (v : Cell) :
    getCell (setCell m k v) k = some v := by
  induction m with
  | nil => simp [setCell, getCell]
  | cons p rest ih =>
    by_cases h : p.1 = k
    · simp [setCell, getCell, h]
    · simp [setCell, getCell, h, ih]

/-- Setting one column leaves lookups of other columns unchanged. -/
theorem getCell_set_ne (m : List (Tok × Cell)) (k k' : Tok) (v : Cell)
    (h : k' ≠ k) : getCell (setCell m k v) k' = getCell m k' := by
  induction m with
  | nil => simp [setCell, getCell, Ne.symm h]
  | cons p rest ih =>
    by_cases hp : p.1 = k
    · simp [setCell, getCell, hp, h, Ne.symm h]
    · simp only [setCell, getCell, if_neg hp]
      by_cases hp' : p.1 = k' <;> simp [hp', ih]

/-- The three trace column names of one phase are pairwise distinct. -/
theorem ptrace_ne_xtrace (p : String) : "ptrace_" ++ p ≠ "xtrace_" ++ p := by
  intro h
  have h2 := congrArg (fun s => s.data.head?) h
  simp [String.data_append] at h2

/-- The three trace column names of one phase are pairwise distinct. -/
theorem ptrace_ne_ytrace (p : String) : "ptrace_" ++ p ≠ "ytrace_" ++ p := by
  intro h
  have h2 := congrArg (fun s => s.data.head?) h
  simp [String.data_append] at h2

/-- The three trace column names of one phase are pairwise distinct. -/
theorem xtrace_ne_ytrace (p : String) : "xtrace_" ++ p ≠ "ytrace_" ++ p := by
  intro h
  have h2 := congrArg (fun s => s.data.head?) h
  simp [String.data_append] at h2

/-- Unfolding of the file driver's fold on a cons cell. -/
theorem fileFold_cons (path : String) (a : List TrialDM × Mode)
    (l : List Tok) (ls : List (List Tok)) :
    List.foldlM (fileStep path) a (l :: ls) =
      (fileStep path a l) >>= fun b => List.foldlM (fileStep path) b ls := rfl

/-- Unfolding of the file driver's fold on the empty list. -/
theorem fileFold_nil (path : String) (a : List TrialDM × Mode) :
    List.foldlM (fileStep path) a [] = .ok a := rfl

/-- A line matching `is_start_trial` has exactly the 4-token
`MSG … start_trial …` shape. -/
theorem isStartTrial_inv (l : List Tok) (h : isStartTrial l = true) :
    ∃ b d, l = [.str "MSG", b, .str "start_trial", d] := by
  match l with
  | [a, b, c, d] =>
    simp only [isStartTrial, decide_eq_true_eq] at h
    obtain ⟨h1, h2⟩ := h
    exact ⟨b, d, by rw [(pyEq_str_right a _).mp h1, (pyEq_str_right c _).mp h2]⟩
  | [] => simp [isStartTrial] at h
  | [a] => simp [isStartTrial] at h
  | [a, b] => simp [isStartTrial] at h
  | [a, b, c] => simp [isStartTrial] at h
  | a :: b :: c :: d :: e :: rest => simp [isStartTrial] at h

/-- Processing a line that matches neither phase marker while a phase is
open: trial variables may be set, and the three traces grow by the
decoded sample fields (if `to_sample` matches). -/
theorem trialStep_plain (st : PState) (l : List Tok) (cp : Tok)
    (hcp : st.current_phase = some cp) (hpm : isPhaseMsg l = false) :
    trialStep st l = .ok
      { st with dm := parseVariable st.dm l,
                ptrace := st.ptrace ++ (toSample l).elim [] (fun s => [s.pupil_size]),
                xtrace := st.xtrace ++ (toSample l).elim [] (fun s => [s.x]),
                ytrace := st.ytrace ++ (toSample l).elim [] (fun s => [s.y]) } := by
  have hsamp : ∀ st' : PState, st'.current_phase = some cp →
      sampleStep st' l =
        { st' with ptrace := st'.ptrace ++ (toSample l).elim [] (fun s => [s.pupil_size]),
                   xtrace := st'.xtrace ++ (toSample l).elim [] (fun s => [s.x]),
                   ytrace := st'.ytrace ++ (toSample l).elim [] (fun s => [s.y]) } := by
    intro st' h'
    rw [sampleStep, h']
    cases hts : toSample l <;> simp [← h']
  match l with
  | [a, b, c, d] =>
    simp only [isPhaseMsg, decide_eq_false_iff_not] at hpm
    have h1 : ¬(pyEq a (.str "MSG") ∧ pyEq c (.str "start_phase")) := by
      intro hc; exact hpm ⟨hc.1, Or.inl hc.2⟩
    have h2 : ¬(pyEq a (.str "MSG") ∧ pyEq c (.str "end_phase")) := by
      intro hc; exact hpm ⟨hc.1, Or.inr hc.2⟩
    rw [trialStep, parsePhase, if_neg h1, if_neg h2,
      hsamp { st with dm := parseVariable st.dm [a, b, c, d] } hcp]
  | [] =>
    rw [trialStep, parsePhase, hsamp { st with dm := parseVariable st.dm [] } hcp]
    all_goals simp
  | [a] =>
    rw [trialStep, parsePhase, hsamp { st with dm := parseVariable st.dm [a] } hcp]
    all_goals simp
  | [a, b] =>
    rw [trialStep, parsePhase,
      hsamp { st with dm := parseVariable st.dm [a, b] } hcp]
    all_goals simp
  | [a, b, c] =>
    rw [trialStep, parsePhase,
      hsamp { st with dm := parseVariable st.dm [a, b, c] } hcp]
    all_goals simp
  | a :: b :: c :: d :: e :: rest =>
    rw [trialStep, parsePhase,
      hsamp { st with dm := parseVariable st.dm (a :: b :: c :: d :: e :: rest) } hcp]
    all_goals simp

/-- Unfolding of the scanner in base mode on one character. -/
theorem shlexRun_base_cons (tok : Option (List Char)) (acc : List String)
    (c : Char) (cs : List Char) :
    shlexRun .base tok acc (c :: cs) =
      if shlexWs c then
        match tok with
        | none => shlexRun .base none acc cs
        | some t => shlexRun .base none (acc ++ [String.mk t]) cs
      else if c = '\'' then shlexRun .sq (some (tok.getD [])) acc cs
      else if c = '"' then shlexRun .dq (some (tok.getD [])) acc cs
      else if c = '\\' then shlexRun .escB (some (tok.getD [])) acc cs
      else shlexRun .base (pushTok tok c) acc cs := by
  cases tok <;> rfl

/-- On input free of quote and escape characters the scanner never leaves
its base mode and always succeeds. -/
theorem shlexRun_clean (cs : List Char)
    (h : ∀ c ∈ cs, ¬(c = '"' ∨ c = '\'' ∨ c = '\\')) :
    ∀ tok acc, ∃ ws, shlexRun .base tok acc cs = .ok ws := by
  induction cs with
  | nil =>
    intro tok acc
    cases tok with
    | none => exact ⟨acc, rfl⟩
    | some t => exact ⟨acc ++ [String.mk t], rfl⟩
  | cons c cs ih =>
    intro tok acc
    have hc := h c (by simp)
    have ih' := ih (fun c hc => h c (by simp [hc]))
    rw [shlexRun_base_cons]
    by_cases hws : shlexWs c = true
    · rw [if_pos hws]
      cases tok with
      | none => exact ih' none acc
      | some t => exact ih' none (acc ++ [String.mk t])
    · rw [if_neg hws, if_neg (fun hq => hc (Or.inr (Or.inl hq))),
        if_neg (fun hq => hc (Or.inl hq)),
        if_neg (fun hq => hc (Or.inr (Or.inr hq)))]
      exact ih' (pushTok tok c) acc

/-- On whitespace-only input the scanner emits nothing. -/
theorem shlexRun_ws (cs : List Char) (h : ∀ c ∈ cs, shlexWs c = true) :
    ∀ acc, shlexRun .base none acc cs = .ok acc := by
  induction cs with
  | nil => intro acc; rfl
  | cons c cs ih =>
    intro acc
    rw [shlexRun_base_cons, if_pos (h c (by simp))]
    exact ih (fun c hc => h c (by simp [hc])) acc

/-- Folding the file driver over lines containing no `end_trial` marker
keeps the trial open, emits no row, and only updates the trial state. -/
theorem foldNoEnd (path : String) :
    ∀ (toks : List (List Tok)) (rows : List TrialDM) (st : PState)
      (res : List TrialDM × Mode),
      (∀ l ∈ toks, isEndTrial l = false) →
      List.foldlM (fileStep path) (rows, Mode.inTrial st) toks = .ok res →
      ∃ st', res = (rows, Mode.inTrial st') := by
  intro toks
  induction toks with
  | nil =>
    intro rows st res _ hfold
    rw [fileFold_nil] at hfold
    exact ⟨st, by simpa using hfold.symm⟩
  | cons l ls ih =>
    intro rows st res hno hfold
    rw [fileFold_cons] at hfold
    have hend : isEndTrial l = false := hno l (by simp)
    simp only [fileStep, hend, Bool.false_eq_true, if_false] at hfold
    cases htr : trialStep st l with
    | error e => simp [htr, Except.map, Except.bind, Bind.bind] at hfold
    | ok st1 =>
      simp only [htr, Except.map, Except.bind, Bind.bind] at hfold
      exact ih rows st1 res (fun l' hl' => hno l' (by simp [hl'])) hfold

/-!  Claims. -/

/-- C1 (counterexample): parsing the spec's six-line scenario does NOT
yield `ptrace_probe = [2141.0]`: the 4-token sample line is rejected by
`to_sample` (which requires 5 or 9 tokens), so the produced trial row has
an empty `ptrace_probe` trace. -/
theorem c1_scenario_counterexample :
    parseFile "f" specScenario = .ok [specScenarioRow] ∧
    specScenarioRow.get? (.str "ptrace_probe") = some (.series []) ∧
    Cell.series [] ≠ Cell.series [.real (mkRat 2141 1)] := by decide

/-- C1 (amended): parsing the six-line scenario produces exactly one
trial row with `cond = "A"`, but the three `…trace_probe` columns are
empty (length 0), because the 4-token sample line
`4815155 168.2 406.5 2141.0` does not satisfy `to_sample`'s requirement
of 5 or 9 tokens. -/
theorem c1_scenario_amended :
    parseFile "f" specScenario = .ok [specScenarioRow] ∧
    specScenarioRow.get? (.str "cond") = some (.scalar (.str "A")) ∧
    specScenarioRow.get? (.str "ptrace_probe") = some (.series []) ∧
    specScenarioRow.get? (.str "xtrace_probe") = some (.series []) ∧
    specScenarioRow.get? (.str "ytrace_probe") = some (.series []) := by
  decide

/-- C4 (counterexample): the tokenizer is not total: on a line holding a
single unclosed double quote, `shlex.split` raises `ValueError` and
`split` propagates it. -/
theorem c4_tokenizer_counterexample :
    splitLine "\"" = .error "No closing quotation" := by decide

/-- C4 (amended): tokenization can fail on lines with unbalanced quoting
or a trailing escape; on every line free of quote and backslash
characters it succeeds, yielding the shell-split words coerced
int-else-real-else-text, and a whitespace-only line yields the empty
sequence. -/
theorem c4_tokenizer_amended (s : String)
    (h : ∀ c ∈ s.toList, ¬(c = '"' ∨ c = '\'' ∨ c = '\\')) :
    ∃ ws, shlexSplit s = .ok ws ∧ splitLine s = .ok (ws.map coerce) ∧
      ((∀ c ∈ s.toList, shlexWs c = true) → ws = []) := by
  obtain ⟨ws, hws⟩ := shlexRun_clean s.toList h none []
  refine ⟨ws, hws, ?_, ?_⟩
  · simp only [splitLine, shlexSplit, hws]; rfl
  · intro hall
    have h0 := shlexRun_ws s.toList hall []
    rw [h0] at hws
    exact (Except.ok.inj hws).symm

/-- C4 (witness): the amended tokenizer theorem applied to the scenario's
first line. -/
theorem c4_tokenizer_witness :
    ∃ ws, shlexSplit "MSG 100 start_trial 1" = .ok ws ∧
      splitLine "MSG 100 start_trial 1" = .ok (ws.map coerce) ∧
      ((∀ c ∈ ("MSG 100 start_trial 1" : String).toList, shlexWs c = true) →
        ws = []) :=
  c4_tokenizer_amended "MSG 100 start_trial 1" (by decide)

/-- C5 (counterexample): a file whose line stream ends right after
`start_trial` — the trial is never terminated — still contributes one row
to the output table, so an unterminated trial is flushed, not
discarded. -/
theorem c5_unterminated_counterexample :
    parseFile "g" ["MSG 100 start_trial 1"] =
      .ok [trialInit "g" (.int 1)] := by decide

/-- C5 (amended): when the stream ends while a trial is open (no
`end_trial` follows the `start_trial` marker), the open trial's row is
still emitted: `parse_trial`'s loop simply runs out of lines and the row
is appended to the file table. -/
theorem c5_unterminated_amended (path : String) (ts tid : Tok)
    (toks : List (List Tok)) (res : List TrialDM × Mode)
    (hno : ∀ l ∈ toks, isEndTrial l = false)
    (hfold : List.foldlM (fileStep path)
      ([], Mode.inTrial (startPState path tid)) toks = .ok res) :
    ∃ st', res = ([], Mode.inTrial st') ∧
      parseFileToks path ([.str "MSG", ts, .str "start_trial", tid] :: toks) =
        .ok [st'.dm] := by
  obtain ⟨st', hst'⟩ := foldNoEnd path toks [] (startPState path tid) res hno hfold
  refine ⟨st', hst', ?_⟩
  rw [parseFileToks, fileFold_cons]
  have hstep : fileStep path ([], Mode.idle)
      [.str "MSG", ts, .str "start_trial", tid] =
      .ok ([], Mode.inTrial (startPState path tid)) := by
    rw [fileStep]
    simp [isStartTrial, pyEq, startPState]
  rw [hstep]
  show (List.foldlM (fileStep path) ([], Mode.inTrial (startPState path tid))
      toks) >>= _ = _
  rw [hfold, hst']
  rfl

/-- C5 (witness): the amended theorem at a concrete one-line trial body
containing only a variable line. -/
theorem c5_unterminated_witness :
    ∃ st', (([], Mode.inTrial
        { startPState "w5" (.int 1) with
          dm := (trialInit "w5" (.int 1)).set (.str "rt") (.scalar (.int 500)) })
        : List TrialDM × Mode) = ([], Mode.inTrial st') ∧
      parseFileToks "w5"
        [[.str "MSG", .int 100, .str "start_trial", .int 1],
         [.str "MSG", .int 101, .str "var", .str "rt", .int 500]] =
        .ok [st'.dm] :=
  c5_unterminated_amended "w5" (.int 100) (.int 1)
    [[.str "MSG", .int 101, .str "var", .str "rt", .int 500]] _
    (by decide) rfl

/-- C6 (counterexample): an `end_trial` seen while phase `probe` is still
open is accepted silently: the run succeeds, the trial row is emitted,
and the accumulated trace of the open phase is dropped (no
`ptrace_probe` column exists in the row). -/
theorem c6_end_trial_counterexample :
    parseFile "h"
        ["MSG 100 start_trial 1", "MSG 101 start_phase probe",
         "661781 1.0 2.0 3.0 0", "MSG 104 end_trial"] =
      .ok [trialInit "h" (.int 1)] ∧
    (trialInit "h" (.int 1)).get? (.str "ptrace_probe") = none := by decide

/-- C6 (amended): `is_end_trial` never consults the current phase: an
`end_trial` line closes the trial with no error signal whatever the phase
state, and the row appended is the trial table as-is — the unflushed
trace lists are silently discarded. -/
theorem c6_end_trial_amended (path : String) (rows : List TrialDM)
    (st : PState) (l : List Tok) (h : isEndTrial l = true) :
    fileStep path (rows, Mode.inTrial st) l = .ok (rows ++ [st.dm], .idle) := by
  rw [fileStep]
  simp [h]

/-- C6 (witness): the amended theorem at a state with an open phase and a
non-empty pupil trace. -/
theorem c6_end_trial_witness :
    fileStep "w6" ([], Mode.inTrial
        ⟨some (.str "probe"), [.real (mkRat 3 1)], [.real (mkRat 1 1)],
          [.real (mkRat 2 1)], trialInit "w6" (.int 1)⟩)
        [.str "MSG", .int 104, .str "end_trial"] =
      .ok ([(trialInit "w6" (.int 1) : TrialDM)], .idle) :=
  c6_end_trial_amended "w6" []
    ⟨some (.str "probe"), [.real (mkRat 3 1)], [.real (mkRat 1 1)],
      [.real (mkRat 2 1)], trialInit "w6" (.int 1)⟩
    [.str "MSG", .int 104, .str "end_trial"] (by decide)

/-- C7 (code evaluation): reusing a phase name is silently accepted and
overwrites the earlier traces.  In `reusePhaseLines` the phase `probe` is
opened, collects one sample, is closed, and is then opened and closed
again under the same name: the run raises no assertion and the final
`ptrace_probe` column is the empty second trace.  The control run
`freshPhaseLines`, identical except the second phase is named `probe2`,
keeps the first phase's one-sample trace.  The source's guard
`assert(self.current_phase not in self.trialdm)` tests `None` rather than
the new name, so it can never fire. -/
theorem c7_phase_reuse_eval :
    parseFile "k" reusePhaseLines =
      .ok [⟨[(.str "path", .scalar (.str "k")), (.str "trialid", .scalar (.int 1)),
             (.str "ptrace_probe", .series []), (.str "xtrace_probe", .series []),
             (.str "ytrace_probe", .series [])]⟩] ∧
    parseFile "k" freshPhaseLines =
      .ok [⟨[(.str "path", .scalar (.str "k")), (.str "trialid", .scalar (.int 1)),
             (.str "ptrace_probe", .series [.real (mkRat 3 1)]),
             (.str "xtrace_probe", .series [.real (mkRat 1 1)]),
             (.str "ytrace_probe", .series [.real (mkRat 2 1)]),
             (.str "ptrace_probe2", .series []), (.str "xtrace_probe2", .series []),
             (.str "ytrace_probe2", .series [])]⟩] := by decide

/-- C10: while a trial is open, a line matching the `start_trial` marker
pattern is treated as an ordinary non-matching line: it opens no new
trial row, changes nothing in the parser state, and all subsequent lines
continue to accrue to the already-open trial. -/
theorem c10_nested_start (path : String) (rows : List TrialDM) (st : PState)
    (l : List Tok) (h : isStartTrial l = true) :
    fileStep path (rows, Mode.inTrial st) l = .ok (rows, Mode.inTrial st) := by
  obtain ⟨b, d, rfl⟩ := isStartTrial_inv l h
  have hs : sampleStep st [.str "MSG", b, .str "start_trial", d] = st := by
    rw [sampleStep]
    cases hcp : st.current_phase <;> simp [toSample]
  rw [fileStep]
  rw [show isEndTrial [.str "MSG", b, .str "start_trial", d] = false from rfl]
  simp only [Bool.false_eq_true, if_false]
  rw [trialStep, parsePhase]
  simp [pyEq, parseVariable, hs, Except.map]

/-- C10 (witness): a nested `start_trial` line inside an open trial with
an open phase leaves the driver state untouched. -/
theorem c10_nested_start_witness :
    fileStep "w10" ([], Mode.inTrial
        ⟨some (.str "q"), [.int 5], [.int 6], [.int 7], trialInit "w10" (.int 1)⟩)
        [.str "MSG", .int 7, .str "start_trial", .int 2] =
      .ok ([], Mode.inTrial
        ⟨some (.str "q"), [.int 5], [.int 6], [.int 7], trialInit "w10" (.int 1)⟩) :=
  c10_nested_start "w10" []
    ⟨some (.str "q"), [.int 5], [.int 6], [.int 7], trialInit "w10" (.int 1)⟩
    [.str "MSG", .int 7, .str "start_trial", .int 2] (by decide)

/-- A string token at position 0 makes `to_sample` fail. -/
theorem toSample_str_none (t : Tok) (l : List Tok) (ht : t.isStr = true) :
    toSample (t :: l) = none := by
  match l with
  | t1 :: t2 :: t3 :: rest =>
    rw [toSample.eq_def]
    split
    · simp [ht]
    · rfl
  | [] => rfl
  | [t1] => rfl
  | [t1, t2] => rfl

/-- A token count other than 5 or 9 makes `to_sample` fail. -/
theorem toSample_len_none (l : List Tok)
    (h : ¬(l.length = 5 ∨ l.length = 9)) : toSample l = none := by
  rw [toSample.eq_def, if_neg h]

/-- C3: `Sample.match` succeeds exactly when the token count is in
{5, 6, 8, 9} and token 0 is not text; any line with a different token
count or a textual token 0 is reported as not-a-sample, both by the
classifier (`sample` returns nothing) and by the legacy `to_sample`. -/
theorem c3_sample_match_shape (l : List Tok) :
    (sampleMatch l = true ↔
      ((l.length = 5 ∨ l.length = 6 ∨ l.length = 8 ∨ l.length = 9) ∧
        ∀ t, l.get? 0 = some t → t.isStr = false)) ∧
    ((¬(l.length = 5 ∨ l.length = 6 ∨ l.length = 8 ∨ l.length = 9) ∨
        ∃ t, l.get? 0 = some t ∧ t.isStr = true) →
      (∀ fast eyes, sampleDecode fast eyes l = none) ∧ toSample l = none) := by
  have hiff : sampleMatch l = true ↔
      ((l.length = 5 ∨ l.length = 6 ∨ l.length = 8 ∨ l.length = 9) ∧
        ∀ t, l.get? 0 = some t → t.isStr = false) := by
    cases l with
    | nil => simp [sampleMatch]
    | cons t rest =>
      simp only [sampleMatch, List.getD, List.get?, decide_eq_true_eq,
        Option.getD_some]
      constructor
      · rintro ⟨h1, h2⟩
        exact ⟨h1, fun u hu => by cases hu; simpa using h2⟩
      · rintro ⟨h1, h2⟩
        exact ⟨h1, by simpa using h2 t rfl⟩
  refine ⟨hiff, fun h => ?_⟩
  have hm : sampleMatch l = false := by
    rw [Bool.eq_false_iff]
    intro hm'
    obtain ⟨hlen, hall⟩ := hiff.mp hm'
    rcases h with h | ⟨t, h0, hstr⟩
    · exact h hlen
    · rw [hall t h0] at hstr; cases hstr
  constructor
  · intro fast eyes
    rw [sampleDecode, if_neg (by simp [hm])]
  · rcases h with h | ⟨t, h0, hstr⟩
    · exact toSample_len_none l (fun hc => h (by tauto))
    · match l, h0 with
      | t :: rest, h0 =>
        have : t = t := rfl
        cases h0
        exact toSample_str_none _ _ hstr

/-- C3 (witness): the characterization applied to a 6-token numeric line
(matched by the classifier) and its rejection clause applied to a 4-token
line (`to_sample` and `sample` both reject it). -/
theorem c3_sample_match_shape_witness :
    sampleMatch [.int 1, .int 2, .int 3, .int 4, .int 5, .int 6] = true ∧
    toSample [.int 4815155, .real (mkRat 841 5), .real (mkRat 813 2),
      .real (mkRat 2141 1)] = none := by
  constructor
  · exact (c3_sample_match_shape
      [.int 1, .int 2, .int 3, .int 4, .int 5, .int 6]).1.mpr (by decide)
  · exact ((c3_sample_match_shape
      [.int 4815155, .real (mkRat 841 5), .real (mkRat 813 2),
        .real (mkRat 2141 1)]).2 (by decide)).2

/-- C8 (counterexample): a decoded `Blink` stores the duration verbatim
from the line, not `et − st`: on `Blink`'s own docstring example
(`EBLINK R 5294685 5294774 90`) the stored duration is 90 while
`et − st = 89`. -/
theorem c8_duration_counterexample :
    blinkDecode false eblinkDocLine =
      some ⟨.str "R", .int 5294685, .int 5294774, .int 90⟩ ∧
    Tok.int 90 ≠ Tok.int (5294774 - 5294685) := by decide

/-- Any saccade record's duration is `et - st` (inversion of the field
extraction, for an arbitrary coordinate base index). -/
theorem saccadeFrom_duration (fast : Bool) (l : List Tok) (base : ℕ)
    (s : Saccade) (h : saccadeFrom fast l base = some s) :
    s.duration = s.et - s.st := by
  rw [saccadeFrom] at h
  split at h
  · split at h
    · split at h
      · cases h; rfl
      · cases h
    · cases h
  · cases h

/-- The amplitude stored by the saccade decoder is the Euclidean distance
between the decoded start point and end point (phrased as the distance
between the corresponding points of the Euclidean plane `ℂ`). -/
theorem saccade_size_dist (s : Saccade) :
    s.size = dist (Complex.mk (s.sx : ℝ) (s.sy : ℝ))
      (Complex.mk (s.ex : ℝ) (s.ey : ℝ)) := by
  rw [Saccade.size, Complex.dist_eq_re_im]

/-- C8 (amended): every decoded Fixation and Saccade has
`duration = et − st` exactly, and every decoded Saccade's `size` is the
Euclidean distance between its decoded start and end coordinates; a
decoded Blink instead stores the line's own fifth token as duration,
which need not equal `et − st`. -/
theorem c8_duration_amended :
    (∀ (fast : Bool) (l : List Tok) (f : Fixation),
       fixationDecode fast l = some f → f.duration = f.et - f.st) ∧
    (∀ (fast : Bool) (l : List Tok) (s : Saccade),
       saccadeDecode fast l = some s → s.duration = s.et - s.st ∧
         s.size = dist (Complex.mk (s.sx : ℝ) (s.sy : ℝ))
           (Complex.mk (s.ex : ℝ) (s.ey : ℝ))) := by
  constructor
  · intro fast l f h
    rw [fixationDecode] at h
    split at h
    · split at h
      · split at h
        · cases h; rfl
        · cases h
      · cases h
    · cases h
  · intro fast l s h
    refine ⟨?_, saccade_size_dist s⟩
    rw [saccadeDecode] at h
    split at h
    · exact saccadeFrom_duration fast l _ s h
    · cases h

/-- C8 (witness): the amended theorem applied to the docstring `EFIX` and
`ESACC` lines. -/
theorem c8_duration_witness :
    (∃ f, fixationDecode false efixDocLine = some f ∧
      f.duration = f.et - f.st) ∧
    (∃ s, saccadeDecode false esaccDocLine = some s ∧
      s.duration = s.et - s.st ∧
      s.size = dist (Complex.mk (s.sx : ℝ) (s.sy : ℝ))
        (Complex.mk (s.ex : ℝ) (s.ey : ℝ))) :=
  ⟨⟨_, rfl, c8_duration_amended.1 false efixDocLine _ rfl⟩,
   ⟨_, rfl, c8_duration_amended.2 false esaccDocLine _ rfl⟩⟩

/-- A dot token is decoded to the sentinel. -/
theorem dotOr_dot_of (t : Tok) (h : pyEq t (.str ".") = true) :
    dotOr t = .nan := by rw [dotOr, if_pos h]

/-- A dot or zero token is decoded to the sentinel in pupil position. -/
theorem dotZero_nan_of (t : Tok)
    (h : pyEq t (.int 0) = true ∨ pyEq t (.str ".") = true) :
    dotZero t = .nan := by rw [dotZero, if_pos h]

/-- The decoded field never holds the literal dot. -/
theorem dotOr_ne_dot (t : Tok) : dotOr t ≠ .val (.str ".") := by
  rw [dotOr]
  split
  · simp
  · rename_i hne
    intro hv
    cases hv
    exact hne (by decide)

/-- The decoded pupil field never holds the literal dot. -/
theorem dotZero_ne_dot (t : Tok) : dotZero t ≠ .val (.str ".") := by
  rw [dotZero]
  split
  · simp
  · rename_i hne
    intro hv
    cases hv
    exact hne (Or.inr (by decide))

/-- The decoded pupil field never holds a numeric zero. -/
theorem dotZero_val_nonzero (t u : Tok) (h : dotZero t = .val u) :
    pyEq u (.int 0) = false := by
  rw [dotZero] at h
  split at h
  · cases h
  · cases h
    rename_i hne
    cases hq : pyEq t (.int 0)
    · rfl
    · exact absurd (Or.inl hq) hne

/-- `Sample.__init__` specialized to a right-eye recording. -/
theorem sampleInit_right_eq (fast : Bool) (l : List Tok) :
    sampleInit fast .right l =
      (if assertNumeric fast l [0] then
        match l.get? 0 with
        | none => none
        | some t0 =>
          match l.get? 1, l.get? 2, l.get? 3 with
          | some a, some b, some c =>
            some ⟨t0, .nan, .nan, .nan, dotOr a, dotOr b, dotZero c⟩
          | _, _, _ => none
      else none) := by
  rfl

/-- `Sample.__init__` specialized to a left-eye recording. -/
theorem sampleInit_left_eq (fast : Bool) (l : List Tok) :
    sampleInit fast .left l =
      (if assertNumeric fast l [0] then
        match l.get? 0 with
        | none => none
        | some t0 =>
          match l.get? 1, l.get? 2, l.get? 3 with
          | some a, some b, some c =>
            some ⟨t0, dotOr a, dotOr b, dotZero c, .nan, .nan, .nan⟩
          | _, _, _ => none
      else none) := by
  rfl

/-- `Sample.__init__` specialized to a both-eyes recording. -/
theorem sampleInit_both_eq (fast : Bool) (l : List Tok) :
    sampleInit fast .both l =
      (if assertNumeric fast l [0] then
        match l.get? 0 with
        | none => none
        | some t0 =>
          match l.get? 1, l.get? 2, l.get? 3, l.get? 4, l.get? 5, l.get? 6 with
          | some a, some b, some c, some d, some e, some f =>
            some ⟨t0, dotOr a, dotOr b, dotZero c, dotOr d, dotOr e, dotZero f⟩
          | _, _, _, _, _, _ => none
      else none) := by
  rfl

/-- Inversion of `Sample.__init__` for a right-eye recording. -/
theorem sampleInit_right_inv (fast : Bool) (l : List Tok) (s : Sample)
    (h : sampleInit fast .right l = some s) :
    ∃ t0 a b c, l.get? 0 = some t0 ∧ l.get? 1 = some a ∧ l.get? 2 = some b ∧
      l.get? 3 = some c ∧ assertNumeric fast l [0] = true ∧
      s = ⟨t0, .nan, .nan, .nan, dotOr a, dotOr b, dotZero c⟩ := by
  rw [sampleInit_right_eq] at h
  split at h
  · split at h
    · exact Option.noConfusion h
    · split at h
      · cases h
        refine ⟨_, _, _, _, ?_, ?_, ?_, ?_, ?_, rfl⟩ <;> assumption
      · exact Option.noConfusion h
  · exact Option.noConfusion h

/-- Inversion of `Sample.__init__` for a left-eye recording. -/
theorem sampleInit_left_inv (fast : Bool) (l : List Tok) (s : Sample)
    (h : sampleInit fast .left l = some s) :
    ∃ t0 a b c, l.get? 0 = some t0 ∧ l.get? 1 = some a ∧ l.get? 2 = some b ∧
      l.get? 3 = some c ∧ assertNumeric fast l [0] = true ∧
      s = ⟨t0, dotOr a, dotOr b, dotZero c, .nan, .nan, .nan⟩ := by
  rw [sampleInit_left_eq] at h
  split at h
  · split at h
    · exact Option.noConfusion h
    · split at h
      · cases h
        refine ⟨_, _, _, _, ?_, ?_, ?_, ?_, ?_, rfl⟩ <;> assumption
      · exact Option.noConfusion h
  · exact Option.noConfusion h

/-- Inversion of `Sample.__init__` for a both-eyes recording. -/
theorem sampleInit_both_inv (fast : Bool) (l : List Tok) (s : Sample)
    (h : sampleInit fast .both l = some s) :
    ∃ t0 a b c d e f, l.get? 0 = some t0 ∧ l.get? 1 = some a ∧
      l.get? 2 = some b ∧ l.get? 3 = some c ∧ l.get? 4 = some d ∧
      l.get? 5 = some e ∧ l.get? 6 = some f ∧
      assertNumeric fast l [0] = true ∧
      s = ⟨t0, dotOr a, dotOr b, dotZero c, dotOr d, dotOr e, dotZero f⟩ := by
  rw [sampleInit_both_eq] at h
  split at h
  · split at h
    · exact Option.noConfusion h
    · split at h
      · cases h
        refine ⟨_, _, _, _, _, _, _, ?_, ?_, ?_, ?_, ?_, ?_, ?_, ?_, rfl⟩ <;>
          assumption
      · exact Option.noConfusion h
  · exact Option.noConfusion h

/-- `Sample.__init__` succeeds whenever the timestamp assertion passes and
the list is long enough for the per-eye fields actually read. -/
theorem sampleInit_isSome (fast : Bool) (eyes : Eyes) (l : List Tok)
    (hA : assertNumeric fast l [0] = true)
    (hlen : (match eyes with | .both => 7 | _ => 4) ≤ l.length) :
    (sampleInit fast eyes l).isSome = true := by
  have haux : ∀ i, i < l.length → ∃ t, l[i]? = some t := by
    intro i hi
    cases hg : l[i]? with
    | none => rw [List.getElem?_eq_none_iff] at hg; omega
    | some t => exact ⟨t, rfl⟩
  cases eyes with
  | both =>
    simp only at hlen
    obtain ⟨t0, h0⟩ := haux 0 (by omega)
    obtain ⟨a, h1⟩ := haux 1 (by omega)
    obtain ⟨b, h2⟩ := haux 2 (by omega)
    obtain ⟨c, h3⟩ := haux 3 (by omega)
    obtain ⟨d, h4⟩ := haux 4 (by omega)
    obtain ⟨e, h5⟩ := haux 5 (by omega)
    obtain ⟨f, h6⟩ := haux 6 (by omega)
    simp [sampleInit_both_eq, List.get?_eq_getElem?, hA, h0, h1, h2, h3, h4, h5, h6]
  | right =>
    simp only at hlen
    obtain ⟨t0, h0⟩ := haux 0 (by omega)
    obtain ⟨a, h1⟩ := haux 1 (by omega)
    obtain ⟨b, h2⟩ := haux 2 (by omega)
    obtain ⟨c, h3⟩ := haux 3 (by omega)
    simp [sampleInit_right_eq, List.get?_eq_getElem?, hA, h0, h1, h2, h3]
  | left =>
    simp only at hlen
    obtain ⟨t0, h0⟩ := haux 0 (by omega)
    obtain ⟨a, h1⟩ := haux 1 (by omega)
    obtain ⟨b, h2⟩ := haux 2 (by omega)
    obtain ⟨c, h3⟩ := haux 3 (by omega)
    simp [sampleInit_left_eq, List.get?_eq_getElem?, hA, h0, h1, h2, h3]

/-- The timestamp assertion depends only on token 0. -/
theorem assertNumeric0_congr (fast : Bool) (l l' : List Tok)
    (h : l'.get? 0 = l.get? 0) :
    assertNumeric fast l' [0] = assertNumeric fast l [0] := by
  have h' : l'[0]? = l[0]? := by simpa [List.get?_eq_getElem?] using h
  simp [assertNumeric, h']

/-- `Sample.match` depends only on the token count and token 0. -/
theorem sampleMatch_congr (l l' : List Tok) (hlen : l'.length = l.length)
    (h0 : l'.get? 0 = l.get? 0) : sampleMatch l' = sampleMatch l := by
  have e : ∀ (m : List Tok), m.getD 0 (.int 0) = (m.get? 0).getD (.int 0) := by
    intro m
    simp [List.getD_eq_getElem?_getD, List.get?_eq_getElem?]
  rw [sampleMatch, sampleMatch, hlen, e, e, h0]

/-- Unfolding of `to_sample` on a list of at least four tokens. -/
theorem toSample_cons_eq (t0 t1 t2 t3 : Tok) (tail : List Tok) :
    toSample (t0 :: t1 :: t2 :: t3 :: tail) =
      (if ((t0 :: t1 :: t2 :: t3 :: tail).length = 5 ∨
          (t0 :: t1 :: t2 :: t3 :: tail).length = 9) then
        if t0.isStr then none
        else if t1.isStr then none
        else if pyEq t3 (.int 0) ∨ t3.isStr then none
        else some ⟨t0, t1, t2, t3⟩
      else none) := by
  rfl

/-- C2 (counterexample): on the blink-format line `661781 . . 0.0 ...`
the classifier's `Sample.match` accepts the line, yet the cited legacy
decoder `to_sample` rejects it outright instead of recording the dot and
zero fields as the sentinel — its docstring says "Samples with missing
data are not matched". -/
theorem c2_missing_data_counterexample :
    sampleMatch blinkFormatLine = true ∧
    sampleDecode false .right blinkFormatLine =
      some ⟨.int 661781, .nan, .nan, .nan, .nan, .nan, .nan⟩ ∧
    toSample blinkFormatLine = none := by decide

/-- C2 (amended): in the event classifier (`Sample.__init__` with the
per-file eyes context) every accepted line records a dot token as the
sentinel, a zero or dot pupil token as the sentinel, never keeps the
literal dot or a numeric-zero pupil, and acceptance never depends on the
per-eye fields (any line of the same length with the same token 0 is
also accepted); the legacy `to_sample` instead rejects any sample line
whose x token is text or whose pupil token is zero or text. -/
theorem c2_missing_data_amended :
    (∀ (fast : Bool) (eyes : Eyes) (l : List Tok) (s : Sample),
      sampleDecode fast eyes l = some s →
      ((l.get? 1 = some (.str ".") → eyeX eyes s = .nan) ∧
       (l.get? 2 = some (.str ".") → eyeY eyes s = .nan) ∧
       (∀ t, l.get? 3 = some t →
         pyEq t (.int 0) = true ∨ pyEq t (.str ".") = true →
         eyePupil eyes s = .nan) ∧
       (eyes = .both →
         (l.get? 4 = some (.str ".") → s.rx = .nan) ∧
         (l.get? 5 = some (.str ".") → s.ry = .nan) ∧
         (∀ t, l.get? 6 = some t →
           pyEq t (.int 0) = true ∨ pyEq t (.str ".") = true →
           s.rpupil_size = .nan)) ∧
       noMissingLiteral s)) ∧
    (∀ (fast : Bool) (eyes : Eyes) (l l' : List Tok) (s : Sample),
      sampleDecode fast eyes l = some s → l'.length = l.length →
      l'.get? 0 = l.get? 0 → (sampleDecode fast eyes l').isSome = true) ∧
    (∀ (l : List Tok) (d : SampleD), toSample l = some d →
      d.x.isStr = false ∧ d.pupil_size.isStr = false ∧
        pyEq d.pupil_size (.int 0) = false) := by
  refine ⟨?_, ?_, ?_⟩
  · intro fast eyes l s h
    rw [sampleDecode] at h
    split at h
    · cases eyes with
      | right =>
        obtain ⟨t0, a, b, c, h0, h1, h2, h3, hA, rfl⟩ :=
          sampleInit_right_inv fast l s h
        refine ⟨?_, ?_, ?_, fun hb => absurd hb (by decide), ?_⟩
        · intro hd
          rw [h1] at hd
          rw [Option.some.inj hd]
          exact dotOr_dot_of (.str ".") (by decide)
        · intro hd
          rw [h2] at hd
          rw [Option.some.inj hd]
          exact dotOr_dot_of (.str ".") (by decide)
        · intro t hd hz
          rw [h3] at hd
          rw [← Option.some.inj hd] at hz
          exact dotZero_nan_of c hz
        · exact ⟨by simp, by simp, dotOr_ne_dot a, dotOr_ne_dot b, by simp,
            dotZero_ne_dot c, by simp, fun t ht => dotZero_val_nonzero c t ht⟩
      | left =>
        obtain ⟨t0, a, b, c, h0, h1, h2, h3, hA, rfl⟩ :=
          sampleInit_left_inv fast l s h
        refine ⟨?_, ?_, ?_, fun hb => absurd hb (by decide), ?_⟩
        · intro hd
          rw [h1] at hd
          rw [Option.some.inj hd]
          exact dotOr_dot_of (.str ".") (by decide)
        · intro hd
          rw [h2] at hd
          rw [Option.some.inj hd]
          exact dotOr_dot_of (.str ".") (by decide)
        · intro t hd hz
          rw [h3] at hd
          rw [← Option.some.inj hd] at hz
          exact dotZero_nan_of c hz
        · exact ⟨dotOr_ne_dot a, dotOr_ne_dot b, by simp, by simp,
            dotZero_ne_dot c, by simp, fun t ht => dotZero_val_nonzero c t ht,
            by simp⟩
      | both =>
        obtain ⟨t0, a, b, c, d, e, f, h0, h1, h2, h3, h4, h5, h6, hA, rfl⟩ :=
          sampleInit_both_inv fast l s h
        refine ⟨?_, ?_, ?_, fun _ => ⟨?_, ?_, ?_⟩, ?_⟩
        · intro hd
          rw [h1] at hd
          rw [Option.some.inj hd]
          exact dotOr_dot_of (.str ".") (by decide)
        · intro hd
          rw [h2] at hd
          rw [Option.some.inj hd]
          exact dotOr_dot_of (.str ".") (by decide)
        · intro t hd hz
          rw [h3] at hd
          rw [← Option.some.inj hd] at hz
          exact dotZero_nan_of c hz
        · intro hd
          rw [h4] at hd
          rw [Option.some.inj hd]
          exact dotOr_dot_of (.str ".") (by decide)
        · intro hd
          rw [h5] at hd
          rw [Option.some.inj hd]
          exact dotOr_dot_of (.str ".") (by decide)
        · intro t hd hz
          rw [h6] at hd
          rw [← Option.some.inj hd] at hz
          exact dotZero_nan_of f hz
        · exact ⟨dotOr_ne_dot a, dotOr_ne_dot b, dotOr_ne_dot d,
            dotOr_ne_dot e, dotZero_ne_dot c, dotZero_ne_dot f,
            fun t ht => dotZero_val_nonzero c t ht,
            fun t ht => dotZero_val_nonzero f t ht⟩
    · exact Option.noConfusion h
  · intro fast eyes l l' s h hlen h0
    rw [sampleDecode] at h
    split at h
    · rename_i hm
      have hm' : sampleMatch l' = true := by
        rw [sampleMatch_congr l l' hlen h0]; exact hm
      have hA' : assertNumeric fast l' [0] = true → True := fun _ => trivial
      rw [sampleDecode, if_pos hm']
      cases eyes with
      | right =>
        obtain ⟨t0, a, b, c, _, _, _, h3, hA, _⟩ :=
          sampleInit_right_inv fast l s h
        have hb : 3 < l.length := (List.get?_eq_some.mp h3).1
        exact sampleInit_isSome fast .right l'
          (by rw [assertNumeric0_congr fast l l' h0]; exact hA)
          (by simp only; omega)
      | left =>
        obtain ⟨t0, a, b, c, _, _, _, h3, hA, _⟩ :=
          sampleInit_left_inv fast l s h
        have hb : 3 < l.length := (List.get?_eq_some.mp h3).1
        exact sampleInit_isSome fast .left l'
          (by rw [assertNumeric0_congr fast l l' h0]; exact hA)
          (by simp only; omega)
      | both =>
        obtain ⟨t0, a, b, c, d, e, f, _, _, _, _, _, _, h6, hA, _⟩ :=
          sampleInit_both_inv fast l s h
        have hb : 6 < l.length := (List.get?_eq_some.mp h6).1
        exact sampleInit_isSome fast .both l'
          (by rw [assertNumeric0_congr fast l l' h0]; exact hA)
          (by simp only; omega)
    · exact Option.noConfusion h
  · intro l d h
    match l, h with
    | t0 :: t1 :: t2 :: t3 :: tail, h =>
      rw [toSample_cons_eq] at h
      split at h
      · split at h
        · exact Option.noConfusion h
        · split at h
          · exact Option.noConfusion h
          · split at h
            · exact Option.noConfusion h
            · cases h
              simp_all
      · exact Option.noConfusion h
    | [], h => exact Option.noConfusion h
    | [u1], h => exact Option.noConfusion h
    | [u1, u2], h => exact Option.noConfusion h
    | [u1, u2, u3], h => exact Option.noConfusion h

/-- C2 (witness): the amended theorem applied at concrete lines: a dot x
field decodes to the sentinel; a line of the same shape as an accepted
one is accepted; and `to_sample` output on an accepted plain line has a
non-text x and a non-zero, non-text pupil size. -/
theorem c2_missing_data_witness :
    (eyeX .right ⟨.int 661781, .nan, .nan, .nan, .nan, .nan, .nan⟩ = .nan) ∧
    (sampleDecode false .right
      [.int 661781, .real (mkRat 1 1), .real (mkRat 2 1), .real (mkRat 3 1),
        .str "..."]).isSome = true ∧
    ((SampleD.mk (.int 661781) (.real (mkRat 1 1)) (.real (mkRat 2 1))
        (.real (mkRat 3 1))).x.isStr = false ∧
      (SampleD.mk (.int 661781) (.real (mkRat 1 1)) (.real (mkRat 2 1))
        (.real (mkRat 3 1))).pupil_size.isStr = false ∧
      pyEq (SampleD.mk (.int 661781) (.real (mkRat 1 1)) (.real (mkRat 2 1))
        (.real (mkRat 3 1))).pupil_size (.int 0) = false) :=
  ⟨(c2_missing_data_amended.1 false .right blinkFormatLine
      ⟨.int 661781, .nan, .nan, .nan, .nan, .nan, .nan⟩ (by decide)).1
      (by decide),
   c2_missing_data_amended.2.1 false .right blinkFormatLine
      [.int 661781, .real (mkRat 1 1), .real (mkRat 2 1), .real (mkRat 3 1),
        .str "..."]
      ⟨.int 661781, .nan, .nan, .nan, .nan, .nan, .nan⟩
      (by decide) (by decide) (by decide),
   c2_missing_data_amended.2.2
      [.int 661781, .real (mkRat 1 1), .real (mkRat 2 1), .real (mkRat 3 1),
        .int 0]
      ⟨.int 661781, .real (mkRat 1 1), .real (mkRat 2 1), .real (mkRat 3 1)⟩
      (by decide)⟩

/-- A 4-token line never matches `parse_variable`. -/
theorem parseVariable_four (dm : TrialDM) (a b c d : Tok) :
    parseVariable dm [a, b, c, d] = dm := rfl

/-- A 4-token line never matches `is_end_trial`. -/
theorem isEndTrial_four (a b c d : Tok) : isEndTrial [a, b, c, d] = false := rfl

/-- `parse_phase` on a matching `end_phase` line flushes the three traces
into the trial table and closes the phase. -/
theorem parsePhase_end (st : PState) (ts : Tok) (p : String)
    (hcp : st.current_phase = some (.str p)) :
    parsePhase st [.str "MSG", ts, .str "end_phase", .str p] = .ok
      { st with
          current_phase := none,
          dm := ((st.dm.set (.str ("ptrace_" ++ p)) (.series st.ptrace)).set
            (.str ("xtrace_" ++ p)) (.series st.xtrace)).set
            (.str ("ytrace_" ++ p)) (.series st.ytrace) } := by
  rw [parsePhase, if_neg (by rintro ⟨_, h2⟩; exact absurd h2 (by decide)),
    if_pos ⟨by decide, by decide⟩, hcp]
  simp [pyEq]

/-- Trace-key inequalities lifted to tokens. -/
theorem tok_ptrace_ne_xtrace (p : String) :
    (Tok.str ("ptrace_" ++ p)) ≠ .str ("xtrace_" ++ p) :=
  fun h => ptrace_ne_xtrace p (Tok.str.inj h)

/-- Trace-key inequalities lifted to tokens. -/
theorem tok_ptrace_ne_ytrace (p : String) :
    (Tok.str ("ptrace_" ++ p)) ≠ .str ("ytrace_" ++ p) :=
  fun h => ptrace_ne_ytrace p (Tok.str.inj h)

/-- Trace-key inequalities lifted to tokens. -/
theorem tok_xtrace_ne_ytrace (p : String) :
    (Tok.str ("xtrace_" ++ p)) ≠ .str ("ytrace_" ++ p) :=
  fun h => xtrace_ne_ytrace p (Tok.str.inj h)

/-- Folding the driver over phase-body lines (no trial/phase markers)
accumulates exactly the decoded samples, in order, into the three traces
and applies the variable lines to the trial table. -/
theorem foldBody (path : String) (cp : Tok) :
    ∀ (body : List (List Tok)) (rows : List TrialDM) (st : PState),
      st.current_phase = some cp →
      (∀ l ∈ body, isEndTrial l = false ∧ isPhaseMsg l = false) →
      ∀ tail,
        List.foldlM (fileStep path) (rows, Mode.inTrial st) (body ++ tail) =
        List.foldlM (fileStep path) (rows, Mode.inTrial
          { st with
              dm := body.foldl parseVariable st.dm,
              ptrace :=
                st.ptrace ++ (body.filterMap toSample).map SampleD.pupil_size,
              xtrace := st.xtrace ++ (body.filterMap toSample).map SampleD.x,
              ytrace := st.ytrace ++ (body.filterMap toSample).map SampleD.y })
          tail := by
  intro body
  induction body with
  | nil =>
    intro rows st hcp _ tail
    simp
  | cons l body ih =>
    intro rows st hcp hb tail
    have hend := (hb l (by simp)).1
    have hpm := (hb l (by simp)).2
    rw [List.cons_append, fileFold_cons, fileStep]
    simp only [hend, Bool.false_eq_true, if_false]
    rw [trialStep_plain st l cp hcp hpm]
    show List.foldlM (fileStep path) (rows, Mode.inTrial _) (body ++ tail) = _
    rw [ih rows
      { st with
          dm := parseVariable st.dm l,
          ptrace := st.ptrace ++ (toSample l).elim [] (fun s => [s.pupil_size]),
          xtrace := st.xtrace ++ (toSample l).elim [] (fun s => [s.x]),
          ytrace := st.ytrace ++ (toSample l).elim [] (fun s => [s.y]) }
      hcp (fun l' hl' => hb l' (by simp [hl']))]
    cases hts : toSample l <;>
      simp [hts, List.filterMap_cons, List.append_assoc]

/-- C9: a phase opened with empty traces and closed by a matching
`end_phase` marker, with body lines containing no trial/phase markers,
flushes three trace columns that are exactly the decoded samples of the
body in arrival order — so each column has length K when K body lines
were accepted by `to_sample`, index-aligned with the acceptance order. -/
theorem c9_phase_traces (path : String) (rows : List TrialDM) (st : PState)
    (p : String) (ts : Tok) (body : List (List Tok))
    (hcp : st.current_phase = some (.str p))
    (hp0 : st.ptrace = []) (hx0 : st.xtrace = []) (hy0 : st.ytrace = [])
    (hb : ∀ l ∈ body, isEndTrial l = false ∧ isPhaseMsg l = false) :
    ∃ st', List.foldlM (fileStep path) (rows, Mode.inTrial st)
        (body ++ [[.str "MSG", ts, .str "end_phase", .str p]]) =
        .ok (rows, Mode.inTrial st') ∧
      st'.dm.get? (.str ("ptrace_" ++ p)) =
        some (.series ((body.filterMap toSample).map SampleD.pupil_size)) ∧
      st'.dm.get? (.str ("xtrace_" ++ p)) =
        some (.series ((body.filterMap toSample).map SampleD.x)) ∧
      st'.dm.get? (.str ("ytrace_" ++ p)) =
        some (.series ((body.filterMap toSample).map SampleD.y)) ∧
      ((body.filterMap toSample).map SampleD.pupil_size).length =
        (body.filterMap toSample).length ∧
      ((body.filterMap toSample).map SampleD.x).length =
        (body.filterMap toSample).length ∧
      ((body.filterMap toSample).map SampleD.y).length =
        (body.filterMap toSample).length := by
  rw [foldBody path (.str p) body rows st hcp hb]
  rw [hp0, hx0, hy0]
  simp only [List.nil_append]
  rw [fileFold_cons, fileStep]
  simp only [isEndTrial_four, Bool.false_eq_true, if_false]
  rw [trialStep, parseVariable_four,
    parsePhase_end _ ts p (by exact hcp)]
  refine ⟨_, rfl, ?_, ?_, ?_, by simp, by simp, by simp⟩
  · show TrialDM.get? _ _ = _
    rw [TrialDM.get?]
    show getCell (setCell (setCell (setCell _ _ _) _ _) _ _) _ = _
    rw [getCell_set_ne _ _ _ _ (tok_ptrace_ne_ytrace p),
      getCell_set_ne _ _ _ _ (tok_ptrace_ne_xtrace p),
      getCell_set_self]
  · show TrialDM.get? _ _ = _
    rw [TrialDM.get?]
    show getCell (setCell (setCell (setCell _ _ _) _ _) _ _) _ = _
    rw [getCell_set_ne _ _ _ _ (tok_xtrace_ne_ytrace p), getCell_set_self]
  · show TrialDM.get? _ _ = _
    rw [TrialDM.get?]
    show getCell (setCell (setCell (setCell _ _ _) _ _) _ _) _ = _
    rw [getCell_set_self]

/-- C9 (witness): a concrete phase body — one accepted 5-token sample
line, one junk line, one variable line — flushed into columns of length
one holding the sample's pupil, x and y values. -/
theorem c9_phase_traces_witness :
    ∃ st', List.foldlM (fileStep "w9") ([], Mode.inTrial
        ⟨some (.str "probe"), [], [], [], trialInit "w9" (.int 1)⟩)
        [[.int 661781, .real (mkRat 1 1), .real (mkRat 2 1),
            .real (mkRat 3 1), .int 0],
          [.str "junk"],
          [.str "MSG", .int 102, .str "var", .str "rt", .int 500],
          [.str "MSG", .int 103, .str "end_phase", .str "probe"]] =
        .ok ([], Mode.inTrial st') ∧
      st'.dm.get? (.str "ptrace_probe") =
        some (.series [.real (mkRat 3 1)]) ∧
      st'.dm.get? (.str "xtrace_probe") =
        some (.series [.real (mkRat 1 1)]) ∧
      st'.dm.get? (.str "ytrace_probe") =
        some (.series [.real (mkRat 2 1)]) ∧
      (1 : ℕ) = 1 ∧ (1 : ℕ) = 1 ∧ (1 : ℕ) = 1 :=
  c9_phase_traces "w9" []
    ⟨some (.str "probe"), [], [], [], trialInit "w9" (.int 1)⟩
    "probe" (.int 103)
    [[.int 661781, .real (mkRat 1 1), .real (mkRat 2 1),
        .real (mkRat 3 1), .int 0],
      [.str "junk"],
      [.str "MSG", .int 102, .str "var", .str "rt", .int 500]]
    rfl rfl rfl rfl (by decide)
